import Mathlib

/-!
Shallow embedding of the event-reaction / macro-risk analytics core of
`finapp.py`, together with theorems checking the specification's claims
about it.

Modelling conventions:
* prices and event-relative offsets are rationals (`ℚ`); a `TimeSeries`
  is the ordered list of `(timestamp, price)` rows of a dataframe, with
  timestamps in seconds (alignment divides by 60 to obtain minutes);
* the not-a-number sentinel (`np.nan`) returned by fallible computations
  is modelled as `Option.none`;
* the market-data provider is an oracle value recording, for each
  resolution tier, whether the fetch raises or which series it returns;
* calendar dates in the regime projection are integers (days).
-/

namespace FinApp

/-- A dataframe of (timestamp, price) rows, in row order. -/
abbrev TimeSeries := List (ℚ × ℚ)

/-- `inflation_regime` from the source: threshold the CPI reading at the
hard-coded cuts 6 and 4. -/
def inflation_regime (x : ℚ) : String :=
  if x ≥ 6 then "High Inflation"
  else if x ≤ 4 then "Low Inflation"
  else "Mid Inflation"

/-- `macro_state` from the source, with the release instant and the
current time both given in minutes on a common clock: PRE before the
release, LIVE from the release until 60 minutes after it, POST later. -/
def macro_state (release now : ℚ) : String :=
  if now < release then "PRE"
  else if now ≤ release + 60 then "LIVE"
  else "POST"

/-- Order of the lifecycle states, used to state monotonicity of the
time-driven transitions. -/
def stateRank (s : String) : ℕ :=
  if s = "PRE" then 0 else if s = "LIVE" then 1 else 2

/-- Outcome of one provider fetch: the call either raises or returns a
series (possibly empty). -/
inductive Fetch where
  | fail : Fetch
  | ok : TimeSeries → Fetch

/-- Oracle for `yf.download`: what each resolution tier's request would
yield for the given ticker and event window. -/
structure Provider where
  m1 : Fetch
  m5 : Fetch
  d1 : Fetch

/-- The 5-minute-then-daily tail of `get_market_data`'s cascade.  A
raised exception at either step is caught by the enclosing handler,
which returns an empty frame tagged "NA". -/
def cascade5 (p : Provider) : TimeSeries × String :=
  match p.m5 with
  | .fail => ([], "NA")
  | .ok df5 =>
    if df5.isEmpty then
      match p.d1 with
      | .fail => ([], "NA")
      | .ok dfd => (dfd, "1d")
    else (df5, "5m")

/-- `get_market_data` from the source.  `recent` is the test
`(now - event_date).days <= 30`; the whole cascade sits inside one
`try`, whose `except` returns `(pd.DataFrame(), "NA")`. -/
def get_market_data (recent : Bool) (p : Provider) : TimeSeries × String :=
  if recent then
    match p.m1 with
    | .fail => ([], "NA")
    | .ok df => if df.isEmpty then cascade5 p else (df, "1m")
  else cascade5 p

/-- `align_event` from the source: re-index each row by
`(timestamp - event_date).total_seconds() / 60`, keeping prices and row
order. -/
def align_event (ts : TimeSeries) (event : ℚ) : TimeSeries :=
  ts.map (fun p => ((p.1 - event) / 60, p.2))

/-- `reaction_return` from the source: last pre-event close over first
post-event close, as a percent; the bare `except` that catches the
failed `iloc` on an empty side becomes `none`. -/
def reaction_return (al : TimeSeries) : Option ℚ :=
  match ((al.filter fun p => decide (p.1 < 0)).map Prod.snd).getLast?,
        ((al.filter fun p => decide (0 < p.1)).map Prod.snd).head? with
  | some pre, some post => some ((post / pre - 1) * 100)
  | _, _ => none

/-- `Series.pct_change().sum()`: the first percent-change is NaN and
`sum` skips it, so the result is the sum of `next/prev - 1` over
consecutive pairs, and 0 for fewer than two rows. -/
def pct_change_sum : List ℚ → ℚ
  | a :: b :: rest => (b / a - 1) + pct_change_sum (b :: rest)
  | _ => 0

/-- Prices of the rows whose offset lies in the half-open window
`(lo, hi]`, in row order (the `al.loc[(al.index > lo) & (al.index <= hi)]`
filter). -/
def priceWindow (lo hi : ℚ) (al : TimeSeries) : List ℚ :=
  (al.filter fun p => decide (lo < p.1 ∧ p.1 ≤ hi)).map Prod.snd

/-- The shock statistic of the Shock-vs-Drift mode, in percent:
`al.loc[(al.index > 0) & (al.index <= 15)]["Close"].pct_change().sum()`
times 100. -/
def shock_pct (al : TimeSeries) : ℚ :=
  100 * pct_change_sum (priceWindow 0 15 al)

/-- The drift statistic of the Shock-vs-Drift mode, in percent:
`al.loc[(al.index > 15) & (al.index <= 60)]["Close"].pct_change().sum()`
times 100. -/
def drift_pct (al : TimeSeries) : ℚ :=
  100 * pct_change_sum (priceWindow 15 60 al)

/-- `np.percentile(x, q)` with the default linear interpolation method:
sort, then interpolate between order statistics at the fractional rank
`(n - 1) * q / 100`. -/
def np_percentile (l : List ℚ) (q : ℚ) : ℚ :=
  let s := l.insertionSort (fun a b => a ≤ b)
  let h : ℚ := ((l.length : ℚ) - 1) * q / 100
  let i : ℕ := (⌊h⌋).toNat
  let lo := s.getD i 0
  let hi := s.getD (i + 1) lo
  lo + (h - (i : ℚ)) * (hi - lo)

/-- `var_95` from the source: `np.percentile(x, 5)`. -/
def var_95 (l : List ℚ) : ℚ := np_percentile l 5

/-- Spec-side definition, following the spec's words only: the value at
fractional rank `h` of an already-sorted sample, by linear interpolation
between the order statistics at ranks `⌊h⌋` and `⌊h⌋ + 1`.  To be
compared with `np_percentile` applied by `var_95`. -/
def specInterp (s : List ℚ) (h : ℚ) : ℚ :=
  let i : ℕ := (⌊h⌋).toNat
  let lo := s.getD i 0
  lo + (h - (i : ℚ)) * (s.getD (i + 1) lo - lo)

/-- The Stress Test accumulation loop: walk the portfolio weights and add
`w * s * shock` for every asset whose sensitivity is available (assets
with empty data or NaN reaction are skipped). -/
def stress_impact (weights : List (String × ℚ)) (sens : String → Option ℚ)
    (shock : ℚ) : ℚ :=
  weights.foldl
    (fun impact aw =>
      match sens aw.1 with
      | none => impact
      | some s => impact + aw.2 * s * shock) 0

/-- `r.index.max()` for a nonempty date index (0 for an empty one). -/
def indexMax : List Int → Int
  | [] => 0
  | [d] => d
  | d :: rest => max d (indexMax rest)

/-- The `end` bound of row `i` of the Macro-VaR projection loop:
the next registry date, or `r.index.max()` for the last row. -/
def regimeEnd (registry : List (Int × String)) (i : ℕ) (maxDate : Int) : Int :=
  match registry[i + 1]? with
  | some e => e.1
  | none => maxDate

/-- One iteration of the projection loop: overwrite the regime on all
days `t` with `start <= t < end` by row `i`'s regime. -/
def assignStep (registry : List (Int × String)) (maxDate : Int)
    (f : Int → Option String) (i : ℕ) : Int → Option String :=
  match registry[i]? with
  | none => f
  | some e => fun t =>
      if e.1 ≤ t ∧ t < regimeEnd registry i maxDate then some e.2 else f t

/-- The `daily_regime` series built by the Macro-VaR loop, as the map
from a day to the regime label it ends up with (`none` = still NaN,
dropped by the later `dropna`). -/
def daily_regime (registry : List (Int × String)) (maxDate : Int) :
    Int → Option String :=
  (List.range registry.length).foldl (assignStep registry maxDate)
    (fun _ => none)

/-- Aligned series exhibiting the window-locality of shock/drift: one
pre-event row, one row in the shock window, two rows in the drift
window, each successive price 10 percent above the previous one. -/
def localitySeries : TimeSeries := [(-5, 100), (10, 110), (20, 121), (30, 1331 / 10)]

/-- C6: the regime classifier is total and boundary-inclusive on both cut
points: with the hard-coded cuts (6, 4) it returns High Inflation for
`x >= 6`, Low Inflation for `x <= 4`, Mid Inflation strictly between,
and at the boundaries 6, 4 and midpoint 5 it returns High, Low and Mid
respectively. -/
theorem inflation_regime_total_boundaries (x : ℚ) :
    (6 ≤ x → inflation_regime x = "High Inflation") ∧
    (x ≤ 4 → inflation_regime x = "Low Inflation") ∧
    (4 < x → x < 6 → inflation_regime x = "Mid Inflation") ∧
    inflation_regime 6 = "High Inflation" ∧
    inflation_regime 4 = "Low Inflation" ∧
    inflation_regime 5 = "Mid Inflation" := by
  refine ⟨fun h => ?_, fun h => ?_, fun h1 h2 => ?_, by decide, by decide, by decide⟩ <;>
    unfold inflation_regime <;> split_ifs <;> first | rfl | linarith

theorem inflation_regime_total_boundaries_witness :
    inflation_regime 7 = "High Inflation" ∧
    inflation_regime 3 = "Low Inflation" ∧
    inflation_regime 5 = "Mid Inflation" :=
  ⟨(inflation_regime_total_boundaries 7).1 (by norm_num),
   (inflation_regime_total_boundaries 3).2.1 (by norm_num),
   (inflation_regime_total_boundaries 5).2.2.1 (by norm_num) (by norm_num)⟩

/-- C9: the macro event lifecycle state is PRE exactly when now is before
the release, LIVE exactly on [release, release + 60 min], POST exactly
after release + 60 min; as `now` increases the state rank only advances
(PRE -> LIVE -> POST), and a POST event never returns to an earlier
state. -/
theorem macro_state_lifecycle (release now now2 : ℚ) :
    (macro_state release now = "PRE" ↔ now < release) ∧
    (macro_state release now = "LIVE" ↔ release ≤ now ∧ now ≤ release + 60) ∧
    (macro_state release now = "POST" ↔ release + 60 < now) ∧
    (now ≤ now2 → stateRank (macro_state release now) ≤ stateRank (macro_state release now2)) ∧
    (macro_state release now = "POST" → now ≤ now2 → macro_state release now2 = "POST") := by
  refine ⟨?_, ?_, ?_, ?_, ?_⟩
  · unfold macro_state; split_ifs with h1 h2
    · exact iff_of_true rfl h1
    · exact iff_of_false (by decide) h1
    · exact iff_of_false (by decide) h1
  · unfold macro_state; split_ifs with h1 h2
    · exact iff_of_false (by decide) (fun hc => absurd h1 (not_lt.mpr hc.1))
    · exact iff_of_true rfl ⟨not_lt.mp h1, h2⟩
    · exact iff_of_false (by decide) (fun hc => h2 hc.2)
  · unfold macro_state; split_ifs with h1 h2
    · exact iff_of_false (by decide) (by intro hc; linarith)
    · exact iff_of_false (by decide) (by intro hc; linarith)
    · exact iff_of_true rfl (not_le.mp h2)
  · intro h; unfold macro_state; split_ifs <;> first | decide | linarith
  · intro hpost hle
    unfold macro_state at hpost ⊢
    split_ifs at hpost ⊢ <;> first | rfl | exact absurd hpost (by decide) | linarith

theorem macro_state_lifecycle_witness :
    macro_state 0 (-1) = "PRE" ∧
    macro_state 0 70 = "POST" ∧
    macro_state 0 80 = "POST" :=
  ⟨(macro_state_lifecycle 0 (-1) 0).1.mpr (by norm_num),
   (macro_state_lifecycle 0 70 80).2.2.1.mpr (by norm_num),
   (macro_state_lifecycle 0 70 80).2.2.2.2
     ((macro_state_lifecycle 0 70 80).2.2.1.mpr (by norm_num)) (by norm_num)⟩

/-- C4: the Event Aligner's output has the same number of rows as the
input, in the same relative order, with unchanged prices, and the index
of every row equals (timestamp - event_time) / 60 as a minute offset. -/
theorem align_event_preserves (ts : TimeSeries) (e : ℚ) :
    (align_event ts e).length = ts.length ∧
    (∀ i : ℕ, ((align_event ts e)[i]?).map Prod.snd = (ts[i]?).map Prod.snd) ∧
    (∀ i : ℕ, ((align_event ts e)[i]?).map Prod.fst
      = (ts[i]?).map fun r => (r.1 - e) / 60) := by
  refine ⟨by simp [align_event], fun i => ?_, fun i => ?_⟩ <;>
    cases h : ts[i]? <;> simp [align_event, List.getElem?_map, h]

/-- C1: `reaction_return` is MISSING (none) exactly when the aligned
series has no row with offset < 0 or no row with offset > 0; otherwise
it returns (post/pre - 1) * 100 where pre is the price of the last row
with offset < 0 and post the price of the first row with offset > 0. -/
theorem reaction_return_missing_iff (al : TimeSeries) :
    (reaction_return al = none ↔
      (al.filter fun p => decide (p.1 < 0)) = [] ∨
      (al.filter fun p => decide (0 < p.1)) = []) ∧
    (∀ pre post,
      ((al.filter fun p => decide (p.1 < 0)).map Prod.snd).getLast? = some pre →
      ((al.filter fun p => decide (0 < p.1)).map Prod.snd).head? = some post →
      reaction_return al = some ((post / pre - 1) * 100)) := by
  have hpre : ((al.filter fun p => decide (p.1 < 0)).map Prod.snd).getLast? = none ↔
      (al.filter fun p => decide (p.1 < 0)) = [] := by
    rw [List.getLast?_eq_none_iff, List.map_eq_nil_iff]
  have hpost : ((al.filter fun p => decide (0 < p.1)).map Prod.snd).head? = none ↔
      (al.filter fun p => decide (0 < p.1)) = [] := by
    rw [List.head?_eq_none_iff, List.map_eq_nil_iff]
  constructor
  · unfold reaction_return
    cases h1 : ((al.filter fun p => decide (p.1 < 0)).map Prod.snd).getLast? with
    | none =>
      cases h2 : ((al.filter fun p => decide (0 < p.1)).map Prod.snd).head? with
      | none => exact iff_of_true rfl (Or.inl (hpre.mp h1))
      | some b => exact iff_of_true rfl (Or.inl (hpre.mp h1))
    | some a =>
      cases h2 : ((al.filter fun p => decide (0 < p.1)).map Prod.snd).head? with
      | none => exact iff_of_true rfl (Or.inr (hpost.mp h2))
      | some b =>
        refine iff_of_false ?_ ?_
        · intro hc; exact Option.noConfusion hc
        · rintro (hE | hE)
          · exact Option.noConfusion (h1.symm.trans (hpre.mpr hE))
          · exact Option.noConfusion (h2.symm.trans (hpost.mpr hE))
  · intro pre post h1 h2
    unfold reaction_return
    rw [h1, h2]

theorem reaction_return_missing_iff_witness :
    reaction_return [((-1 : ℚ), (100 : ℚ)), (1, 110)] = some ((110 / 100 - 1) * 100) :=
  (reaction_return_missing_iff _).2 100 110 rfl rfl

/-- Accumulator form of the stress-test loop: the fold starting at `c`
is `c` plus the sum of the per-asset contributions. -/
lemma stress_impact_foldl (sens : String → Option ℚ) (m : ℚ) :
    ∀ (w : List (String × ℚ)) (c : ℚ),
      w.foldl (fun impact aw =>
        match sens aw.1 with
        | none => impact
        | some s => impact + aw.2 * s * m) c
      = c + (w.map fun aw =>
          match sens aw.1 with
          | none => 0
          | some s => aw.2 * s * m).sum := by
  intro w
  induction w with
  | nil => intro c; simp
  | cons a tl ih =>
    intro c
    cases h : sens a.1 with
    | none => simp [h, ih]
    | some s => simp [h, ih]; ring

/-- C7: the stress impact equals the sum over assets of
weight * sensitivity * shock multiplier, where an asset with MISSING
sensitivity contributes exactly 0; with one MISSING asset at weight 0.3
and one asset of sensitivity 2.0 at weight 0.7 under multiplier 1.0 the
result is exactly 1.4. -/
theorem stress_impact_linear :
    (∀ (w : List (String × ℚ)) (sens : String → Option ℚ) (m : ℚ),
      stress_impact w sens m
        = (w.map fun aw =>
            match sens aw.1 with
            | none => 0
            | some s => aw.2 * s * m).sum) ∧
    stress_impact [("A", 3 / 10), ("B", 7 / 10)]
      (fun a => if a = "B" then some 2 else none) 1 = 7 / 5 := by
  constructor
  · intro w sens m
    unfold stress_impact
    rw [stress_impact_foldl]
    simp
  · simp [stress_impact, List.foldl]
    norm_num

/-- C8: `var_95` is the 5th percentile by the standard linear
interpolation between order statistics: it computes the interpolation
formula on a sorted permutation of its input; on the 11-point synthetic
distribution [-5, ..., 5] it equals -4.5. -/
theorem var_95_percentile :
    (∀ l : List ℚ, l ≠ [] →
      List.Perm l (l.insertionSort fun a b => a ≤ b) ∧
      List.Sorted (· ≤ ·) (l.insertionSort fun a b => a ≤ b) ∧
      var_95 l = specInterp (l.insertionSort fun a b => a ≤ b)
        (((l.length : ℚ) - 1) * 5 / 100)) ∧
    var_95 [-5, -4, -3, -2, -1, 0, 1, 2, 3, 4, 5] = -9 / 2 := by
  constructor
  · intro l _
    exact ⟨(List.perm_insertionSort _ l).symm, List.sorted_insertionSort _ l, rfl⟩
  · norm_num [var_95, np_percentile, List.insertionSort, List.orderedInsert, List.getD]

theorem var_95_percentile_witness :
    var_95 [3, 1, 2] = specInterp ([3, 1, 2].insertionSort fun a b => (a : ℚ) ≤ b)
      ((((3 : ℕ) : ℚ) - 1) * 5 / 100) :=
  (var_95_percentile.1 [3, 1, 2] (by simp)).2.2

/-- The pct-change sum is the sum of `next/prev - 1` over the list of
adjacent pairs. -/
lemma pct_change_sum_pairs (l : List ℚ) :
    pct_change_sum l = ((l.zip l.tail).map fun p => p.2 / p.1 - 1).sum := by
  induction l with
  | nil => simp [pct_change_sum]
  | cons a tl ih =>
    cases tl with
    | nil => simp [pct_change_sum]
    | cons b rest =>
      simp only [pct_change_sum, List.tail_cons, List.zip_cons_cons, List.map_cons,
        List.sum_cons]
      rw [ih]
      simp

/-- A window with at most one observation has pct-change sum 0. -/
lemma pct_change_sum_short {l : List ℚ} (h : l.length ≤ 1) : pct_change_sum l = 0 := by
  cases l with
  | nil => rfl
  | cons a tl =>
    cases tl with
    | nil => rfl
    | cons b rest => simp at h

/-- C5: shock equals 100 times the sum of percent-changes over adjacent
observations in the window (0, 15], drift likewise over (15, 60]; a
window with 0 or 1 observations yields 0 (empty sum), never MISSING —
unlike `reaction_return`, which is MISSING on the same one-row series. -/
theorem shock_drift_windows (al : TimeSeries) :
    shock_pct al
      = 100 * (((priceWindow 0 15 al).zip (priceWindow 0 15 al).tail).map
          fun p => p.2 / p.1 - 1).sum ∧
    drift_pct al
      = 100 * (((priceWindow 15 60 al).zip (priceWindow 15 60 al).tail).map
          fun p => p.2 / p.1 - 1).sum ∧
    ((priceWindow 0 15 al).length ≤ 1 → shock_pct al = 0) ∧
    ((priceWindow 15 60 al).length ≤ 1 → drift_pct al = 0) ∧
    shock_pct [((10 : ℚ), (100 : ℚ))] = 0 ∧
    reaction_return [((10 : ℚ), (100 : ℚ))] = none := by
  refine ⟨?_, ?_, fun h => ?_, fun h => ?_,
    by norm_num [shock_pct, priceWindow, pct_change_sum, List.filter], rfl⟩
  · unfold shock_pct; rw [pct_change_sum_pairs]
  · unfold drift_pct; rw [pct_change_sum_pairs]
  · unfold shock_pct; rw [pct_change_sum_short h]; ring
  · unfold drift_pct; rw [pct_change_sum_short h]; ring

theorem shock_drift_windows_witness :
    shock_pct [((10 : ℚ), (100 : ℚ))] = 0 ∧ drift_pct [((10 : ℚ), (100 : ℚ))] = 0 := by
  refine ⟨(shock_drift_windows _).2.2.1 ?_, (shock_drift_windows _).2.2.2.1 ?_⟩ <;>
    norm_num [priceWindow, List.filter]

/-- C10: percent-changes are taken only inside each filtered window, so
price moves crossing a window boundary count for neither statistic: on
`localitySeries` (10 percent moves at offsets 10, 20 and 30) the shock
is 0, the drift is 10, yet the cumulative pct-change sum over (0, 60]
is 20, so shock + drift differs from the cumulative sum. -/
theorem shock_drift_window_locality :
    shock_pct localitySeries = 0 ∧
    drift_pct localitySeries = 10 ∧
    100 * pct_change_sum (priceWindow 0 60 localitySeries) = 20 ∧
    shock_pct localitySeries + drift_pct localitySeries
      ≠ 100 * pct_change_sum (priceWindow 0 60 localitySeries) := by
  have h1 : shock_pct localitySeries = 0 := by
    norm_num [shock_pct, priceWindow, pct_change_sum, localitySeries, List.filter]
  have h2 : drift_pct localitySeries = 10 := by
    norm_num [drift_pct, priceWindow, pct_change_sum, localitySeries, List.filter]
  have h3 : 100 * pct_change_sum (priceWindow 0 60 localitySeries) = 20 := by
    norm_num [priceWindow, pct_change_sum, localitySeries, List.filter]
  refine ⟨h1, h2, h3, ?_⟩
  rw [h1, h2, h3]
  norm_num

/-- C2 counterexample: with a recent event, a failing minute-resolution
fetch and a 5-minute fetch that would return a non-empty series, the
cascade returns the empty NA result instead of the 5-minute data — the
claimed fall-through after a failed tier does not happen. -/
theorem get_market_data_failure_not_fallthrough :
    get_market_data true ⟨.fail, .ok [((0 : ℚ), (1 : ℚ))], .ok [((0 : ℚ), (1 : ℚ))]⟩
      = ([], "NA") ∧
    get_market_data true ⟨.fail, .ok [((0 : ℚ), (1 : ℚ))], .ok [((0 : ℚ), (1 : ℚ))]⟩
      ≠ ([((0 : ℚ), (1 : ℚ))], "5m") := by
  refine ⟨rfl, ?_⟩
  intro h
  simp [get_market_data] at h

/-- C2 amended: a provider failure at any step of the cascade is caught
and returned to the caller as the empty series tagged NA (never
propagated as an exception), but it aborts the whole cascade: no
coarser tier is attempted after a failed fetch. -/
theorem get_market_data_failure_aborts (p : Provider) :
    (p.m1 = .fail → get_market_data true p = ([], "NA")) ∧
    (p.m5 = .fail → get_market_data false p = ([], "NA")) ∧
    (∀ df, p.m1 = .ok df → df.isEmpty = true → p.m5 = .fail →
      get_market_data true p = ([], "NA")) ∧
    (∀ df5, p.m5 = .ok df5 → df5.isEmpty = true → p.d1 = .fail →
      get_market_data false p = ([], "NA")) ∧
    (∀ df df5, p.m1 = .ok df → df.isEmpty = true → p.m5 = .ok df5 →
      df5.isEmpty = true → p.d1 = .fail → get_market_data true p = ([], "NA")) := by
  refine ⟨fun h => ?_, fun h => ?_, fun df h1 h2 h3 => ?_, fun df5 h1 h2 h3 => ?_,
    fun df df5 h1 h2 h3 h4 h5 => ?_⟩
  · simp [get_market_data, h]
  · simp [get_market_data, cascade5, h]
  · simp [get_market_data, cascade5, h1, h2, h3]
  · simp [get_market_data, cascade5, h1, h2, h3]
  · simp [get_market_data, cascade5, h1, h2, h3, h4, h5]

theorem get_market_data_failure_aborts_witness :
    get_market_data true ⟨.fail, .fail, .fail⟩ = ([], "NA") ∧
    get_market_data false ⟨.fail, .fail, .fail⟩ = ([], "NA") :=
  ⟨(get_market_data_failure_aborts _).1 rfl, (get_market_data_failure_aborts _).2.1 rfl⟩

/-- The projection fold leaves a day untouched when no processed row's
interval contains it. -/
lemma foldl_assign_no_hit (registry : List (Int × String)) (maxDate t : Int)
    (l : List ℕ) (f : Int → Option String)
    (h : ∀ i ∈ l, ∀ e, registry[i]? = some e →
      ¬(e.1 ≤ t ∧ t < regimeEnd registry i maxDate)) :
    (l.foldl (assignStep registry maxDate) f) t = f t := by
  induction l generalizing f with
  | nil => rfl
  | cons i rest ih =>
    have hstep : (assignStep registry maxDate f i) t = f t := by
      unfold assignStep
      cases hg : registry[i]? with
      | none => rfl
      | some e =>
        have := h i (List.mem_cons_self i rest) e hg
        simp [hg, this]
    rw [List.foldl_cons, ih _ (fun j hj => h j (List.mem_cons_of_mem _ hj)), hstep]

/-- The projection fold assigns row `i`'s regime to a day inside row
`i`'s interval when no later row's interval also contains the day. -/
lemma foldl_assign_hit (registry : List (Int × String)) (maxDate t : Int)
    (i : ℕ) (e : Int × String)
    (hget : registry[i]? = some e)
    (hcond : e.1 ≤ t ∧ t < regimeEnd registry i maxDate)
    (hafter : ∀ k, i < k → ∀ e2, registry[k]? = some e2 →
      ¬(e2.1 ≤ t ∧ t < regimeEnd registry k maxDate)) :
    daily_regime registry maxDate t = some e.2 := by
  have hi : i < registry.length := by
    by_contra hc
    rw [List.getElem?_eq_none (le_of_not_lt hc)] at hget
    exact Option.noConfusion hget
  have hsplit : List.range registry.length
      = (List.range i ++ [i]) ++ (List.range (registry.length - (i + 1))).map ((i + 1) + ·) := by
    rw [← List.range_succ, ← List.range_add]
    congr 1
    omega
  unfold daily_regime
  rw [hsplit, List.foldl_append, List.foldl_append]
  have hmid : ∀ g : Int → Option String,
      (List.foldl (assignStep registry maxDate) g [i]) t = some e.2 := by
    intro g
    simp only [List.foldl_cons, List.foldl_nil]
    unfold assignStep
    simp [hget, hcond]
  rw [foldl_assign_no_hit]
  · exact hmid _
  · intro j hj e2 hg2
    obtain ⟨x, _, rfl⟩ := List.mem_map.mp hj
    exact hafter _ (by omega) e2 hg2

/-- In a registry whose dates are strictly sorted, earlier rows carry
strictly smaller dates. -/
lemma sorted_regs_lt {registry : List (Int × String)}
    (hsort : List.Sorted (· < ·) (registry.map Prod.fst))
    {i j : ℕ} (hij : i < j) {e1 e2 : Int × String}
    (h1 : registry[i]? = some e1) (h2 : registry[j]? = some e2) :
    e1.1 < e2.1 := by
  obtain ⟨hi, hie⟩ := List.getElem?_eq_some_iff.mp h1
  obtain ⟨hj, hje⟩ := List.getElem?_eq_some_iff.mp h2
  have hi' : i < (registry.map Prod.fst).length := by simpa using hi
  have hj' : j < (registry.map Prod.fst).length := by simpa using hj
  have := hsort.rel_get_of_lt (a := ⟨i, hi'⟩) (b := ⟨j, hj'⟩) (Fin.mk_lt_mk.mpr hij)
  simpa [List.get_eq_getElem, List.getElem_map, hie, hje] using this

/-- Weak form of `sorted_regs_lt`. -/
lemma sorted_regs_le {registry : List (Int × String)}
    (hsort : List.Sorted (· < ·) (registry.map Prod.fst))
    {i j : ℕ} (hij : i ≤ j) {e1 e2 : Int × String}
    (h1 : registry[i]? = some e1) (h2 : registry[j]? = some e2) :
    e1.1 ≤ e2.1 := by
  rcases Nat.eq_or_lt_of_le hij with rfl | h
  · injection h1.symm.trans h2 with h
    exact le_of_eq (by rw [h])
  · exact le_of_lt (sorted_regs_lt hsort h h1 h2)

/-- C3 amended: over a sorted registry the daily projection is a step
function: a day in [d_i, d_{i+1}) gets regime(d_i); days before the
first event date are unmapped; the last event's regime covers
[d_last, maxDate) only — a day at or after both the last event date and
`maxDate` (in particular the latest available date itself) is left
unmapped, because the loop's final interval excludes its end bound. -/
theorem daily_regime_step_function
    (registry : List (Int × String)) (maxDate t : Int)
    (hsort : List.Sorted (· < ·) (registry.map Prod.fst)) :
    (∀ (i : ℕ) (d : Int) (reg : String) (d2 : Int) (reg2 : String),
      registry[i]? = some (d, reg) → registry[i + 1]? = some (d2, reg2) →
      d ≤ t → t < d2 → daily_regime registry maxDate t = some reg) ∧
    (∀ (d0 : Int) (reg0 : String), registry.head? = some (d0, reg0) → t < d0 →
      daily_regime registry maxDate t = none) ∧
    (∀ (dl : Int) (regl : String), registry.getLast? = some (dl, regl) →
      dl ≤ t → t < maxDate → daily_regime registry maxDate t = some regl) ∧
    (∀ (dl : Int) (regl : String), registry.getLast? = some (dl, regl) →
      dl ≤ t → maxDate ≤ t → daily_regime registry maxDate t = none) := by
  refine ⟨?_, ?_, ?_, ?_⟩
  · intro i d reg d2 reg2 hgi hgi1 hle hlt
    have hend : regimeEnd registry i maxDate = d2 := by
      unfold regimeEnd; rw [hgi1]
    refine foldl_assign_hit registry maxDate t i (d, reg) hgi ⟨hle, by rw [hend]; exact hlt⟩ ?_
    intro k hik e2 hk2 hc
    have hd2 : d2 ≤ e2.1 :=
      sorted_regs_le hsort (show i + 1 ≤ k by omega) hgi1 hk2
    have := hc.1
    omega
  · intro d0 reg0 hhead hlt
    have hg0 : registry[0]? = some (d0, reg0) := by
      rw [← List.head?_eq_getElem?]; exact hhead
    unfold daily_regime
    rw [foldl_assign_no_hit]
    intro i _ e hgi hc
    have : d0 ≤ e.1 := sorted_regs_le hsort (Nat.zero_le i) hg0 hgi
    have := hc.1
    omega
  · intro dl regl hlast hge hlt
    have hne : registry.length ≠ 0 := by
      intro hc
      rw [List.getLast?_eq_none_iff.mpr (List.length_eq_zero.mp hc)] at hlast
      exact Option.noConfusion hlast
    have hgl : registry[registry.length - 1]? = some (dl, regl) := by
      rw [← List.getLast?_eq_getElem?]; exact hlast
    have hend : regimeEnd registry (registry.length - 1) maxDate = maxDate := by
      unfold regimeEnd
      rw [List.getElem?_eq_none (by omega)]
    refine foldl_assign_hit registry maxDate t (registry.length - 1) (dl, regl) hgl
      ⟨hge, by rw [hend]; exact hlt⟩ ?_
    intro k hk e2 hk2 _
    obtain ⟨hklen, _⟩ := List.getElem?_eq_some_iff.mp hk2
    omega
  · intro dl regl hlast hge hmax
    have hne : registry.length ≠ 0 := by
      intro hc
      rw [List.getLast?_eq_none_iff.mpr (List.length_eq_zero.mp hc)] at hlast
      exact Option.noConfusion hlast
    have hgl : registry[registry.length - 1]? = some (dl, regl) := by
      rw [← List.getLast?_eq_getElem?]; exact hlast
    unfold daily_regime
    rw [foldl_assign_no_hit]
    intro i _ e hgi hc
    obtain ⟨hilen, _⟩ := List.getElem?_eq_some_iff.mp hgi
    by_cases hi1 : i + 1 < registry.length
    · have hgi1 : registry[i + 1]? = some registry[i + 1] := List.getElem?_eq_getElem hi1
      have hend : regimeEnd registry i maxDate = (registry[i + 1]).1 := by
        unfold regimeEnd; rw [hgi1]
      have hle : (registry[i + 1]).1 ≤ dl :=
        sorted_regs_le hsort (show i + 1 ≤ registry.length - 1 by omega) hgi1 hgl
      rw [hend] at hc
      have := hc.1
      have := hc.2
      omega
    · have hend : regimeEnd registry i maxDate = maxDate := by
        unfold regimeEnd
        rw [List.getElem?_eq_none (by omega)]
      rw [hend] at hc
      have := hc.2
      omega

theorem daily_regime_step_function_witness :
    daily_regime [((0 : Int), "A"), (10, "B")] 20 5 = some "A" ∧
    daily_regime [((0 : Int), "A"), (10, "B")] 20 (-3) = none ∧
    daily_regime [((0 : Int), "A"), (10, "B")] 20 15 = some "B" ∧
    daily_regime [((0 : Int), "A"), (10, "B")] 20 20 = none := by
  have hsort : List.Sorted (· < ·) ([((0 : Int), "A"), (10, "B")].map Prod.fst) := by
    simp [List.sorted_cons]
  exact ⟨(daily_regime_step_function _ 20 5 hsort).1 0 0 "A" 10 "B" rfl rfl
      (by omega) (by omega),
    (daily_regime_step_function _ 20 (-3) hsort).2.1 0 "A" rfl (by omega),
    (daily_regime_step_function _ 20 15 hsort).2.2.1 10 "B" rfl (by omega) (by omega),
    (daily_regime_step_function _ 20 20 hsort).2.2.2 10 "B" rfl (by omega) (by omega)⟩

/-- C3 counterexample: with a single event at day 0 labelled
"Mid Inflation" and a return series covering days 0 and 1, the latest
available date (day 1 = `r.index.max()`) is left unmapped by the
projection loop, although the claim says the last event's regime
extends through it inclusively. -/
theorem daily_regime_last_date_unmapped :
    indexMax [0, 1] = 1 ∧
    daily_regime [((0 : Int), "Mid Inflation")] (indexMax [0, 1]) 1 = none :=
  ⟨rfl, rfl⟩

end FinApp
